import Mathlib

/-!
Verification of the documentation-to-schema inference engine of the
fakturoid-api scraper (`src/main.py`), as a shallow embedding in Lean.

HTML table rows are modelled by the fields of the cells that the parser
actually reads; machine failures (Python `AttributeError` / `KeyError` /
`IndexError` / failed `assert`) are modelled with `Except` / `Option`;
the process-wide diagnostic logger (`Actor.log.error`) is modelled as an
accumulated list of `Diag` values.
-/

set_option maxRecDepth 4000

/-! ## Python string helpers -/

/-- Python `str.capitalize()` on the character list of an ASCII string:
first character upper-cased, the rest lower-cased. -/
def pyCapitalize : List Char → List Char
  | [] => []
  | c :: cs => c.toUpper :: cs.map Char.toLower

/-- One step of Python `str.split()` word grouping: `wordsByAux p cs acc`
scans `cs`, breaking at characters satisfying `p` and discarding empty
pieces; `acc` holds the (reversed) current word. `wordsBy p cs` is
Python's `cs.split()` with separator predicate `p`. -/
def wordsByAux (p : Char → Bool) : List Char → List Char → List (List Char)
  | [], acc => if acc.isEmpty then [] else [acc.reverse]
  | c :: cs, acc =>
    if p c then
      if acc.isEmpty then wordsByAux p cs [] else acc.reverse :: wordsByAux p cs []
    else
      wordsByAux p cs (c :: acc)

/-- Python `str.split()` (no argument): split on runs of characters
satisfying `p`, dropping empty pieces. -/
def wordsBy (p : Char → Bool) (cs : List Char) : List (List Char) :=
  wordsByAux p cs []

/-! ## `to_camel_case` (src/main.py lines 22-27)

```python
def to_camel_case(text):
    s = text.replace("-", " ").replace("_", " ")
    s = s.split()
    if len(text) == 0:
        return text
    return s[0] + ''.join(i.capitalize() for i in s[1:])
```

`replace` of the single characters `-` and `_` by a space is a character
map; `split()` splits on whitespace; `s[0]` on an empty list raises
`IndexError`, modelled as `none`. -/

/-- The character map performed by `text.replace("-", " ").replace("_", " ")`. -/
def dashUnderscoreToSpace (c : Char) : Char :=
  if c == '-' || c == '_' then ' ' else c

/-- The characters Python `str.split()` (no argument) treats as
whitespace — CPython's `Py_UNICODE_ISSPACE`: the code points with
bidirectional class WS, B or S or general category Zs. Concretely:
tab, LF, VT, FF, CR (`0x09`-`0x0D`), the file/group/record/unit
separators (`0x1C`-`0x1F`), space (`0x20`), next line (`0x85`),
no-break space (`0xA0`), ogham space mark (`0x1680`), the typographic
spaces `0x2000`-`0x200A`, line separator (`0x2028`), paragraph
separator (`0x2029`), narrow no-break space (`0x202F`), medium
mathematical space (`0x205F`) and ideographic space (`0x3000`). -/
def pyWhitespace (c : Char) : Bool :=
  (0x09 ≤ c.toNat && c.toNat ≤ 0x0D) || (0x1C ≤ c.toNat && c.toNat ≤ 0x1F)
  || c.toNat == 0x20 || c.toNat == 0x85 || c.toNat == 0xA0 || c.toNat == 0x1680
  || (0x2000 ≤ c.toNat && c.toNat ≤ 0x200A)
  || c.toNat == 0x2028 || c.toNat == 0x2029 || c.toNat == 0x202F
  || c.toNat == 0x205F || c.toNat == 0x3000

/-- Embedding of `to_camel_case`. Returns `none` exactly when the Python
code raises `IndexError` at `s[0]`. -/
def to_camel_case (text : String) : Option String :=
  let s := wordsBy pyWhitespace (text.data.map dashUnderscoreToSpace)
  if text.length == 0 then
    some text
  else
    match s with
    | [] => none
    | w :: ws => some (String.mk (w ++ (ws.map pyCapitalize).flatten))

/-- The camel-case transformation as claim C8 words it: split on the
separator characters space, hyphen and underscore only, keep the first
word's case, capitalize each later word. `none` when no word exists in a
non-empty input. -/
def camelCaseClaimed (text : String) : Option String :=
  if text = "" then
    some ""
  else
    match wordsBy (fun c => c == ' ' || c == '-' || c == '_') text.data with
    | [] => none
    | w :: ws => some (String.mk (w ++ (ws.map pyCapitalize).flatten))

/-- The camel-case transformation with the full separator set the
program actually uses: every character Python `str.split()` treats as
whitespace, together with hyphen and underscore. Split on those, keep
the first word's case, capitalize each later word. `none` when no word
exists in a non-empty input. -/
def camelCaseSpec (text : String) : Option String :=
  if text = "" then
    some ""
  else
    match wordsBy (fun c => pyWhitespace c || c == '-' || c == '_') text.data with
    | [] => none
    | w :: ws => some (String.mk (w ++ (ws.map pyCapitalize).flatten))

/-- Python `str.lower()` on an ASCII string, as a character map. -/
def pyLower (s : String) : String :=
  ⟨s.data.map Char.toLower⟩

/-! ## Type resolution (src/main.py lines 72-86, 104-122) -/

/-- `SIMPLE_TYPES` (src/main.py lines 72-80): the fixed table of known
scalar type names, mapping a token to a `(type, format)` pair. -/
def SIMPLE_TYPES : List (String × (String × Option String)) :=
  [("String", ("string", none)),
   ("Integer", ("integer", none)),
   ("Boolean", ("boolean", none)),
   ("DateTime", ("string", some "date-time")),
   ("Datetime", ("string", some "date-time")),
   ("Date", ("string", some "date")),
   ("Decimal", ("number", some "decimal"))]

/-- `dereference` (src/main.py lines 83-86): Python `lstrip('#')` removes
every leading `#`. -/
def dereference (object_name : String) : String :=
  ⟨object_name.data.dropWhile (fun c => c == '#')⟩

/-- The `<code>` element of a type cell: `strings` is
`list(type_td.code.strings)`, `a_href` is `type_td.code.a.attrs['href']`
when the cell holds an `<a>` element carrying an `href` attribute
(`none` covers both a missing `<a>` and a missing `href`, which raise
`AttributeError` / `KeyError` respectively). -/
structure TypeCode where
  strings : List String
  a_href : Option String
deriving DecidableEq, Repr

/-- One `<tr>` of the attributes table, modelled by the four cell fields
the parser reads (lines 94-131):
* `vis_div`: `none` when `vis_td.div` is absent, otherwise
  `some t` with `t` the `title` attribute (`none` = `KeyError`);
* `attr_code`: `none` when `attribute_td.code` is absent
  (`AttributeError`), otherwise `some (attribute_td.code.string)` —
  the inner `Option` is Python `None` when the `<code>` element does not
  hold exactly one string;
* `type_code`: `none` when `type_td.code` is absent (`AttributeError`);
* `desc_text`: `desc_td.get_text()`. -/
structure Tr where
  vis_div : Option (Option String)
  attr_code : Option (Option String)
  type_code : Option TypeCode
  desc_text : String
deriving DecidableEq, Repr

/-- The ways a row makes `parse_attributes_table` raise. -/
inductive ParseErr where
  /-- `vis_td.div.attrs['title']` raises `KeyError`. -/
  | missingTitleAttr : ParseErr
  /-- `attribute_td.code` is `None`, so `.string` raises `AttributeError`. -/
  | missingNameCode : ParseErr
  /-- `type_td.code` is `None`, so `.strings` raises `AttributeError`. -/
  | missingTypeCode : ParseErr
  /-- In the array branch, `type_td.code.a.attrs['href']` raises. -/
  | missingLinkHref : ParseErr
deriving DecidableEq, Repr

/-- A diagnostic emitted through `Actor.log.error`. -/
inductive Diag where
  /-- `Unknow type {token}` (line 116). -/
  | unknownType : String → Diag
  /-- `Couldn't make sense of {type_td}` (line 122); carries the
  token strings of the offending type cell. -/
  | cannotMakeSense : List String → Diag
deriving DecidableEq, Repr

/-- One property schema entry as built on lines 124-131: `items` holds
the `$ref` string when present, `format` the format string when present. -/
structure PropSchema where
  type : Option String
  description : String
  items : Option String
  format : Option String
deriving DecidableEq, Repr

/-- The type resolver (src/main.py lines 104-122): from a type cell's
`<code>` element compute `(prop_type, prop_format, items-$ref)` together
with the diagnostics logged, or fail where the Python raises. -/
def resolve_type (tc : TypeCode) :
    Except ParseErr (Option String × Option String × Option String × List Diag) :=
  if tc.strings = ["Array[", "Object", "]"] then
    match tc.a_href with
    | none => .error .missingLinkHref
    | some href =>
      .ok (some "array", none, some ("#/components/schemas/" ++ dereference href), [])
  else if tc.strings.length = 1 then
    match tc.strings with
    | tok :: _ =>
      match SIMPLE_TYPES.lookup tok with
      | none => .ok (some "string", some (pyLower tok), none, [.unknownType tok])
      | some (t, f) => .ok (some t, f, none, [])
    | [] => .ok (none, none, none, [.cannotMakeSense tc.strings])
  else
    .ok (none, none, none, [.cannotMakeSense tc.strings])

/-- Python `dict` assignment `d[k] = v`: replace in place when the key
exists, append otherwise. -/
def dictInsert (k : Option String) (v : PropSchema) :
    List (Option String × PropSchema) → List (Option String × PropSchema)
  | [] => [(k, v)]
  | (k', v') :: rest =>
    if k' = k then (k', v) :: rest else (k', v') :: dictInsert k v rest

/-- The visibility-cell step (lines 98-102): when `vis_td.div` exists its
`title` attribute is read (raising `KeyError` when absent) and the name is
appended to `required` when the title is `"Required attribute"`. The
local `readonly` flag computed by the source is never read afterwards and
is therefore not modelled. -/
def requiredUpdate (vis : Option (Option String)) (req : List (Option String))
    (prop_name : Option String) : Except ParseErr (List (Option String)) :=
  match vis with
  | none => .ok req
  | some none => .error .missingTitleAttr
  | some (some title) =>
    .ok (if title = "Required attribute" then req ++ [prop_name] else req)

/-- The row loop of `parse_attributes_table` (lines 94-131), threading
the `properties` dict, the `required` list and the diagnostics log. -/
def parseRows :
    List Tr → List (Option String × PropSchema) → List (Option String) → List Diag →
    Except ParseErr (List (Option String × PropSchema) × List (Option String) × List Diag)
  | [], props, req, diags => .ok (props, req, diags)
  | tr :: rest, props, req, diags =>
    match tr.attr_code with
    | none => .error .missingNameCode
    | some prop_name =>
      match requiredUpdate tr.vis_div req prop_name with
      | .error e => .error e
      | .ok req' =>
        match tr.type_code with
        | none => .error .missingTypeCode
        | some tc =>
          match resolve_type tc with
          | .error e => .error e
          | .ok (prop_type, prop_format, items, rowDiags) =>
            let entry : PropSchema :=
              { type := prop_type
                description := tr.desc_text
                items := items
                format := prop_format }
            parseRows rest (dictInsert prop_name entry props) req' (diags ++ rowDiags)

/-- `parse_attributes_table` (src/main.py lines 89-134). -/
def parse_attributes_table (rows : List Tr) :
    Except ParseErr (List (Option String × PropSchema) × List (Option String) × List Diag) :=
  parseRows rows [] [] []

/-! ## Registry aggregation (src/main.py lines 199-205) -/

/-- One documented object's schema (`schema_dict`, lines 58-67):
`required` is present only when the list is non-empty. -/
structure ObjectSchema where
  properties : List (Option String × PropSchema)
  required : Option (List (Option String))
deriving DecidableEq, Repr

/-- The aggregation loop of `main` (lines 203-205): for each
`(cls_name, definition)` pair, `assert cls_name not in registry` and then
insert. A failed assertion aborts the run; the `error` value carries the
registry exactly as it stood when the assertion fired. -/
def insert_schemas (reg : List (String × ObjectSchema)) :
    List (String × ObjectSchema) →
    Except (List (String × ObjectSchema)) (List (String × ObjectSchema))
  | [] => .ok reg
  | (cls_name, definition) :: rest =>
    if (reg.lookup cls_name).isSome then .error reg
    else insert_schemas (reg ++ [(cls_name, definition)]) rest

/-! ## The merged output document (src/main.py lines 155-188) -/

/-- JSON-like values, enough to state the shape of the output document. -/
inductive Json where
  | null : Json
  | str : String → Json
  | arr : List Json → Json
  | obj : List (String × Json) → Json

/-- `openapi_info` (lines 157-169). -/
def openapi_info : Json :=
  .obj [("title", .str "Webscraped Fakturoid V3 API"),
        ("description", .str "This is websraped definition of Fakturoid."),
        ("contact", .obj [("name", .str "Jaroslav Henner"),
                          ("url", .str "https://github.com/jarovo/fakturoid-api/")]),
        ("license", .obj [("name", .str "Webscraped Fakturoid API V3 © 2025 by Jaroslav Henner is licensed under CC BY-SA 4.0. To view a copy of this license, visit https://creativecommons.org/licenses/by-sa/4.0/"),
                          ("url", .str "https://creativecommons.org/licenses/by-sa/4.0/")]),
        ("version", .str "3.0.0-draft")]

/-- The `openapi` document (lines 176-188) with the aggregated schema
registry embedded at `components.schemas`. Note that the source assigns
a single object — not a list — to `"servers"`. -/
def openapi_doc (schemas : List (String × Json)) : Json :=
  .obj [("openapi", .str "3.0.4"),
        ("info", openapi_info),
        ("servers", .obj [("url", .str "https://app.fakturoid.cz/api/v3"),
                          ("description", .str "Production Fakturoid server")]),
        ("externalDoc", .obj [("description", .str "Published documentation"),
                              ("url", .str "https://www.fakturoid.cz/api/v3")]),
        ("components", .obj [("schemas", .obj schemas)])]

/-- Field access on a JSON object. -/
def jsonGet (j : Json) (k : String) : Option Json :=
  match j with
  | .obj fields => fields.lookup k
  | _ => none

/-! ## Theorems -/

/-- **C1.** For every type cell whose extracted token sequence is exactly
one token that is a key of the fixed scalar table, the type resolver
returns exactly the documented pair and no items reference: `"String"`
yields type `"string"` with no format, `"Integer"` yields `"integer"`
with no format, `"Boolean"` yields `"boolean"` with no format,
`"DateTime"` and `"Datetime"` each yield `"string"` with format
`"date-time"`, `"Date"` yields `"string"` with format `"date"`, and
`"Decimal"` yields `"number"` with format `"decimal"`. -/
theorem simple_types_resolve_exactly (href : Option String) :
    resolve_type ⟨["String"], href⟩ = .ok (some "string", none, none, [])
    ∧ resolve_type ⟨["Integer"], href⟩ = .ok (some "integer", none, none, [])
    ∧ resolve_type ⟨["Boolean"], href⟩ = .ok (some "boolean", none, none, [])
    ∧ resolve_type ⟨["DateTime"], href⟩ = .ok (some "string", some "date-time", none, [])
    ∧ resolve_type ⟨["Datetime"], href⟩ = .ok (some "string", some "date-time", none, [])
    ∧ resolve_type ⟨["Date"], href⟩ = .ok (some "string", some "date", none, [])
    ∧ resolve_type ⟨["Decimal"], href⟩ = .ok (some "number", some "decimal", none, []) :=
  ⟨rfl, rfl, rfl, rfl, rfl, rfl, rfl⟩

/-- **C2.** A type cell whose token sequence is exactly
`["Array[", "Object", "]"]` and whose cell carries a hyperlink with raw
href `h` resolves to type `"array"`, no format, and an items reference
whose `$ref` string is exactly `"#/components/schemas/"` followed by `h`
with its leading `#` fragment markers stripped; a full row with this type
cell accordingly emits an `array` property schema with that items
reference and no format. -/
theorem array_object_link_resolves (h : String) :
    resolve_type ⟨["Array[", "Object", "]"], some h⟩
      = .ok (some "array", none,
             some ("#/components/schemas/" ++ ⟨h.data.dropWhile (fun c => c == '#')⟩), [])
    ∧ ∀ (name : Option String) (d : String) (rest : List Tr)
        (props : List (Option String × PropSchema)) (req : List (Option String))
        (diags : List Diag),
        parseRows (⟨none, some name, some ⟨["Array[", "Object", "]"], some h⟩, d⟩ :: rest)
            props req diags
          = parseRows rest
              (dictInsert name
                ⟨some "array", d,
                 some ("#/components/schemas/" ++ ⟨h.data.dropWhile (fun c => c == '#')⟩),
                 none⟩ props)
              req (diags ++ []) :=
  ⟨rfl, fun _ _ _ _ _ _ => rfl⟩

/-- **C3.** A type cell with exactly one token `t` that is not a key of
the fixed scalar table resolves to type `"string"` with format
`pyLower t` (the token lower-cased), raises the `unknownType` diagnostic, and does not abort:
the resolver returns `ok`, and a row with this type cell is parsed into a
property entry while the remaining rows keep being parsed. -/
theorem unknown_single_token_fallback (t : String) (href : Option String)
    (hmiss : SIMPLE_TYPES.lookup t = none) :
    resolve_type ⟨[t], href⟩ = .ok (some "string", some (pyLower t), none, [.unknownType t])
    ∧ ∀ (name : Option String) (d : String) (rest : List Tr)
        (props : List (Option String × PropSchema)) (req : List (Option String))
        (diags : List Diag),
        parseRows (⟨none, some name, some ⟨[t], href⟩, d⟩ :: rest) props req diags
          = parseRows rest
              (dictInsert name ⟨some "string", d, none, some (pyLower t)⟩ props)
              req (diags ++ [.unknownType t]) := by
  have hres : resolve_type ⟨[t], href⟩
      = .ok (some "string", some (pyLower t), none, [.unknownType t]) := by
    simp [resolve_type, hmiss]
  refine ⟨hres, ?_⟩
  intro name d rest props req diags
  simp only [parseRows, requiredUpdate, hres]

/-- Witness for `unknown_single_token_fallback` at the concrete unknown
token `"Money"`. -/
theorem unknown_single_token_fallback_witness :
    resolve_type ⟨["Money"], none⟩
      = .ok (some "string", some "money", none, [.unknownType "Money"]) :=
  (unknown_single_token_fallback "Money" none (by decide)).1

/-- **C4.** A type cell whose token sequence has any other shape (length
different from 1 and different from the exact `["Array[", "Object", "]"]`
pattern) resolves to type `none`, format `none`, no items reference,
raises the `cannotMakeSense` diagnostic, and a property entry with `none`
type and no items or format is still emitted for the row while the rest
of the table keeps being parsed. -/
theorem unresolvable_shape_emits_null_type (tc : TypeCode)
    (hpat : tc.strings ≠ ["Array[", "Object", "]"])
    (hlen : tc.strings.length ≠ 1) :
    resolve_type tc = .ok (none, none, none, [.cannotMakeSense tc.strings])
    ∧ ∀ (name : Option String) (d : String) (rest : List Tr)
        (props : List (Option String × PropSchema)) (req : List (Option String))
        (diags : List Diag),
        parseRows (⟨none, some name, some tc, d⟩ :: rest) props req diags
          = parseRows rest (dictInsert name ⟨none, d, none, none⟩ props)
              req (diags ++ [.cannotMakeSense tc.strings]) := by
  have hres : resolve_type tc = .ok (none, none, none, [.cannotMakeSense tc.strings]) := by
    unfold resolve_type
    rw [if_neg hpat, if_neg hlen]
  refine ⟨hres, ?_⟩
  intro name d rest props req diags
  simp only [parseRows, requiredUpdate, hres]

/-- Witness for `unresolvable_shape_emits_null_type` at the concrete
two-token type cell `["a", "b"]`, continuing into an empty tail. -/
theorem unresolvable_shape_emits_null_type_witness :
    resolve_type ⟨["a", "b"], none⟩
      = .ok (none, none, none, [.cannotMakeSense ["a", "b"]])
    ∧ parseRows [⟨none, some (some "x"), some ⟨["a", "b"], none⟩, "dd"⟩] [] [] []
        = parseRows [] (dictInsert (some "x") ⟨none, "dd", none, none⟩ []) [] ([] ++ [.cannotMakeSense ["a", "b"]]) :=
  ⟨(unresolvable_shape_emits_null_type ⟨["a", "b"], none⟩ (by decide) (by decide)).1,
   (unresolvable_shape_emits_null_type ⟨["a", "b"], none⟩ (by decide) (by decide)).2
     (some "x") "dd" [] [] [] []⟩

/-- **C5, counterexample.** A two-row table whose first row's
attribute-name cell has no `code` element does *not* yield the second
row's property entry: `parse_attributes_table` fails outright with
`missingNameCode` (the Python `AttributeError` at
`attribute_td.code.string` propagates), so no row of the table produces
any entry. -/
theorem malformed_row_aborts_table_cex :
    parse_attributes_table
        [⟨none, none, some ⟨["String"], none⟩, "d1"⟩,
         ⟨none, some (some "id"), some ⟨["Integer"], none⟩, "d2"⟩]
      = .error .missingNameCode
    ∧ ∀ (props : List (Option String × PropSchema)) (req : List (Option String))
        (diags : List Diag),
        parse_attributes_table
            [⟨none, none, some ⟨["String"], none⟩, "d1"⟩,
             ⟨none, some (some "id"), some ⟨["Integer"], none⟩, "d2"⟩]
          ≠ .ok (props, req, diags) :=
  ⟨rfl, fun _ _ _ h => Except.noConfusion (rfl.trans h)⟩

/-- **C5, amended.** As soon as a row whose attribute-name cell has no
`code` element is reached, parsing of the whole table aborts with the
`missingNameCode` structural error, whatever rows follow and whatever was
accumulated so far; no property map is returned. -/
theorem malformed_row_aborts_table (tr : Tr) (hmal : tr.attr_code = none)
    (rest : List Tr) (props : List (Option String × PropSchema))
    (req : List (Option String)) (diags : List Diag) :
    parseRows (tr :: rest) props req diags = .error .missingNameCode := by
  simp only [parseRows, hmal]

/-- Witness for `malformed_row_aborts_table` at a concrete malformed row
followed by a well-formed row. -/
theorem malformed_row_aborts_table_witness :
    parseRows
        [⟨none, none, some ⟨["String"], none⟩, "d1"⟩,
         ⟨none, some (some "id"), some ⟨["Integer"], none⟩, "d2"⟩] [] [] []
      = .error .missingNameCode :=
  malformed_row_aborts_table ⟨none, none, some ⟨["String"], none⟩, "d1"⟩ rfl
    [⟨none, some (some "id"), some ⟨["Integer"], none⟩, "d2"⟩] [] [] []

/-- **C6.** Inserting a schema name that the registry already maps (to a
first schema `s1`) is a fatal assertion: the aggregation loop stops with
an error carrying the registry exactly as it stood — unchanged, still
mapping the name to `s1` only — whatever further pairs were pending. -/
theorem duplicate_name_aborts_unchanged (reg : List (String × ObjectSchema))
    (n : String) (s1 s2 : ObjectSchema) (rest : List (String × ObjectSchema))
    (hfirst : reg.lookup n = some s1) :
    insert_schemas reg ((n, s2) :: rest) = .error reg ∧ reg.lookup n = some s1 := by
  constructor
  · simp only [insert_schemas, hfirst, Option.isSome_some, if_pos]
  · exact hfirst

/-- Witness for `duplicate_name_aborts_unchanged`: a registry holding one
schema under `"Invoice.Attributes"` rejects a second insertion under the
same name and is left unchanged. -/
theorem duplicate_name_aborts_unchanged_witness :
    insert_schemas [("Invoice.Attributes", ⟨[], none⟩)]
        [("Invoice.Attributes", ⟨[(some "id", ⟨some "integer", "d", none, none⟩)], none⟩)]
      = .error [("Invoice.Attributes", ⟨[], none⟩)]
    ∧ List.lookup "Invoice.Attributes" [("Invoice.Attributes", (⟨[], none⟩ : ObjectSchema))]
      = some ⟨[], none⟩ :=
  duplicate_name_aborts_unchanged [("Invoice.Attributes", ⟨[], none⟩)]
    "Invoice.Attributes" ⟨[], none⟩
    ⟨[(some "id", ⟨some "integer", "d", none, none⟩)], none⟩ [] (by decide)

/-- **C7.** The merged output document carries `"openapi" = "3.0.4"`, an
`info` object, an `externalDoc` object and `components.schemas` holding
the registry — but its `"servers"` member is a single JSON *object*
`{url, description}` and not a list, contradicting the documented
top-level shape (`"servers": [...]`) that OpenAPI 3.0.4 prescribes. -/
theorem openapi_doc_servers_is_object_not_list (schemas : List (String × Json)) :
    jsonGet (openapi_doc schemas) "openapi" = some (.str "3.0.4")
    ∧ jsonGet (openapi_doc schemas) "info" = some openapi_info
    ∧ jsonGet (openapi_doc schemas) "externalDoc"
      = some (.obj [("description", .str "Published documentation"),
                    ("url", .str "https://www.fakturoid.cz/api/v3")])
    ∧ jsonGet (openapi_doc schemas) "components"
      = some (.obj [("schemas", .obj schemas)])
    ∧ jsonGet (openapi_doc schemas) "servers"
      = some (.obj [("url", .str "https://app.fakturoid.cz/api/v3"),
                    ("description", .str "Production Fakturoid server")])
    ∧ ∀ xs : List Json, jsonGet (openapi_doc schemas) "servers" ≠ some (.arr xs) := by
  refine ⟨rfl, rfl, rfl, rfl, rfl, ?_⟩
  intro xs h
  rw [show jsonGet (openapi_doc schemas) "servers"
        = some (.obj [("url", .str "https://app.fakturoid.cz/api/v3"),
                      ("description", .str "Production Fakturoid server")]) from rfl] at h
  exact Json.noConfusion (Option.some.inj h)
/-- Pointwise effect of the hyphen/underscore replacement on Python's
whitespace test: a character maps into Python whitespace exactly when it
already is Python whitespace or is one of the two replaced separators. -/
theorem dash_pyWhitespace (c : Char) :
    pyWhitespace (dashUnderscoreToSpace c)
      = (pyWhitespace c || c == '-' || c == '_') := by
  by_cases h1 : c = '-'
  · subst h1; decide
  · by_cases h2 : c = '_'
    · subst h2; decide
    · have hcond : (c == '-' || c == '_') = false := by
        simp [h1, h2]
      have hd : dashUnderscoreToSpace c = c := by
        simp [dashUnderscoreToSpace, hcond]
      rw [hd]
      cases hw : pyWhitespace c
      · simp [hcond]
      · simp

/-- Replacing hyphen and underscore by a space and then splitting on
Python whitespace is the same word grouping as splitting directly on
Python whitespace, hyphen and underscore. -/
theorem wordsByAux_map_dash (cs : List Char) :
    ∀ acc, wordsByAux pyWhitespace (cs.map dashUnderscoreToSpace) acc
      = wordsByAux (fun c => pyWhitespace c || c == '-' || c == '_') cs acc := by
  induction cs with
  | nil => intro acc; rfl
  | cons c cs ih =>
    intro acc
    simp only [List.map_cons, wordsByAux, dash_pyWhitespace c]
    by_cases hq : (pyWhitespace c || c == '-' || c == '_') = true
    · simp only [hq, if_true, ih]
    · have hq' : ¬c = '-' ∧ ¬c = '_' := by
        simp only [Bool.or_eq_true, beq_iff_eq, not_or] at hq
        exact ⟨hq.1.2, hq.2⟩
      have hnd : dashUnderscoreToSpace c = c := by
        simp [dashUnderscoreToSpace, hq'.1, hq'.2]
      simp only [Bool.not_eq_true] at hq
      simp only [hq, Bool.false_eq_true, if_false, hnd, ih]

theorem wordsByAux_ne_nil (p : Char → Bool) (cs : List Char) :
    ∀ acc, acc ≠ [] → wordsByAux p cs acc ≠ [] := by
  induction cs with
  | nil =>
    intro acc hacc
    simp only [wordsByAux]
    simp [List.isEmpty_iff, hacc]
  | cons c cs ih =>
    intro acc hacc
    simp only [wordsByAux]
    cases hp : p c
    · simp only [Bool.false_eq_true, if_false]
      exact ih (c :: acc) (by simp)
    · simp only [if_true]
      simp [List.isEmpty_iff, hacc]

theorem wordsBy_nil_iff (p : Char → Bool) (cs : List Char) :
    wordsBy p cs = [] ↔ ∀ c ∈ cs, p c := by
  unfold wordsBy
  induction cs with
  | nil => simp [wordsByAux]
  | cons c cs ih =>
    simp only [wordsByAux, List.isEmpty_nil, if_true]
    cases hp : p c
    · simp only [Bool.false_eq_true, if_false]
      constructor
      · intro hcontra
        exact absurd hcontra (wordsByAux_ne_nil p cs (c :: []) (by simp))
      · intro hall
        have := hall c (List.mem_cons_self c cs)
        rw [hp] at this
        exact absurd this (by simp)
    · simp only [if_true]
      rw [ih]
      constructor
      · intro hall x hx
        rcases List.mem_cons.mp hx with rfl | hx'
        · exact hp
        · exact hall x hx'
      · intro hall x hx
        exact hall x (List.mem_cons_of_mem c hx)

/-- Helper: `to_camel_case` agrees with the full-separator camel-case
transformation `camelCaseSpec` on every input. -/
theorem to_camel_case_eq_spec (text : String) :
    to_camel_case text = camelCaseSpec text := by
  by_cases h0 : text = ""
  · subst h0; rfl
  · have hw := wordsByAux_map_dash text.data []
    have hne : text.data ≠ [] := fun hd => h0 (String.ext hd)
    have hlen : (text.length == 0) = false := by
      show (text.data.length == 0) = false
      cases htd : text.data with
      | nil => exact absurd htd hne
      | cons c cs => rfl
    simp only [to_camel_case, camelCaseSpec, hlen, Bool.false_eq_true, if_false,
      if_neg h0, wordsBy]
    rw [hw]

/-- **C8, counterexample.** The input `"a\tb"` contains none of the
claim's separator characters space, hyphen and underscore, so the
claimed transformation (`camelCaseClaimed`) keeps it as the single word
`"a\tb"`; the program also splits on the tab (Python `str.split()`
whitespace) and returns `"aB"` instead. -/
theorem camel_case_tab_split_cex :
    to_camel_case "a\tb" = some "aB"
    ∧ camelCaseClaimed "a\tb" = some "a\tb"
    ∧ to_camel_case "a\tb" ≠ camelCaseClaimed "a\tb" := by
  decide

/-- **C8, amended.** The camelCase transformation splits its input on
whitespace (every character Python `str.split()` treats as whitespace,
modelled by `pyWhitespace`), hyphen and underscore boundaries, joins the
pieces with each word after the first capitalized and the first word's
case preserved, and returns the empty string unchanged; in particular it
maps `""` to `""`, `"invoice-line"` to `"invoiceLine"` and
`"Invoice_Line Item"` to `"InvoiceLineItem"`. -/
theorem camel_case_splits_and_joins (text : String) :
    to_camel_case text = camelCaseSpec text
    ∧ to_camel_case "" = some ""
    ∧ to_camel_case "invoice-line" = some "invoiceLine"
    ∧ to_camel_case "Invoice_Line Item" = some "InvoiceLineItem" :=
  ⟨to_camel_case_eq_spec text, by decide, by decide, by decide⟩

/-- **C10, counterexample.** `to_camel_case` fails (the Python raises
`IndexError`, modelled `none`) on the input `"\t"`, which is non-empty
and consists of a character that is none of the claim's separator
characters space, hyphen and underscore — so the claimed
"returns a value exactly when the input is empty or contains a
non-separator character" is false. -/
theorem to_camel_case_tab_cex :
    to_camel_case "\t" = none ∧ ("\t" : String) ≠ ""
    ∧ (Char.ofNat 9) ∈ ("\t" : String).data
    ∧ ¬(Char.ofNat 9 = ' ' ∨ Char.ofNat 9 = '-' ∨ Char.ofNat 9 = '_') := by
  decide

/-- **C10, amended.** The separator set of `to_camel_case` is every
character Python `str.split()` treats as whitespace (`pyWhitespace`)
together with hyphen and underscore: the function fails (Python
`IndexError`, modelled `none`) exactly on the non-empty inputs all of
whose characters are separators, and returns a value exactly when the
input is empty or contains at least one non-separator character. -/
theorem to_camel_case_none_iff (text : String) :
    to_camel_case text = none
      ↔ (text ≠ "" ∧ ∀ c ∈ text.data, (pyWhitespace c ∨ c = '-' ∨ c = '_')) := by
  have key : wordsBy pyWhitespace (text.data.map dashUnderscoreToSpace) = []
      ↔ ∀ c ∈ text.data, (pyWhitespace c ∨ c = '-' ∨ c = '_') := by
    rw [wordsBy_nil_iff]
    constructor
    · intro hall c hc
      have hx := hall (dashUnderscoreToSpace c) (List.mem_map_of_mem _ hc)
      rw [dash_pyWhitespace] at hx
      simpa [or_assoc] using hx
    · intro hall x hx
      rcases List.mem_map.mp hx with ⟨c, hc, rfl⟩
      rw [dash_pyWhitespace]
      simpa [or_assoc] using hall c hc
  by_cases h0 : text = ""
  · subst h0
    simp [to_camel_case]
  · have hlen : (text.length == 0) = false := by
      show (text.data.length == 0) = false
      cases htd : text.data with
      | nil => exact absurd (String.ext htd) h0
      | cons c cs => rfl
    simp only [to_camel_case, hlen, Bool.false_eq_true, if_false]
    constructor
    · intro hnone
      refine ⟨h0, ?_⟩
      rw [← key]
      cases hwb : wordsBy pyWhitespace (text.data.map dashUnderscoreToSpace) with
      | nil => rfl
      | cons w ws =>
        rw [hwb] at hnone
        exact Option.noConfusion hnone
    · rintro ⟨-, hall⟩
      rw [← key] at hall
      rw [hall]

theorem dictInsert_mem_fst (k : Option String) (v : PropSchema)
    (props : List (Option String × PropSchema)) (n : Option String) :
    n ∈ (dictInsert k v props).map Prod.fst ↔ n = k ∨ n ∈ props.map Prod.fst := by
  induction props with
  | nil => simp [dictInsert]
  | cons p rest ih =>
    obtain ⟨k', v'⟩ := p
    by_cases hk : k' = k
    · subst hk
      have hstep : dictInsert k' v ((k', v') :: rest) = (k', v) :: rest := by
        simp [dictInsert]
      rw [hstep]
      simp only [List.map_cons, List.mem_cons]
      constructor
      · rintro (rfl | hmem)
        · exact Or.inl rfl
        · exact Or.inr (Or.inr hmem)
      · rintro (rfl | rfl | hmem)
        · exact Or.inl rfl
        · exact Or.inl rfl
        · exact Or.inr hmem
    · have hstep : dictInsert k v ((k', v') :: rest) = (k', v') :: dictInsert k v rest := by
        simp [dictInsert, hk]
      rw [hstep]
      simp only [List.map_cons, List.mem_cons, ih]
      tauto

theorem requiredUpdate_sub (vis : Option (Option String)) (req : List (Option String))
    (pn : Option String) (req' : List (Option String))
    (h : requiredUpdate vis req pn = .ok req') :
    ∀ n ∈ req', n ∈ req ∨ n = pn := by
  cases vis with
  | none =>
    have := Except.ok.inj h
    subst this
    exact fun n hn => Or.inl hn
  | some t =>
    cases t with
    | none => exact Except.noConfusion h
    | some title =>
      simp only [requiredUpdate] at h
      have := Except.ok.inj h
      subst this
      intro n hn
      by_cases ht : title = "Required attribute"
      · rw [if_pos ht] at hn
        rcases List.mem_append.mp hn with hn' | hn'
        · exact Or.inl hn'
        · exact Or.inr (List.mem_singleton.mp hn')
      · rw [if_neg ht] at hn
        exact Or.inl hn

theorem parseRows_required_sub (rows : List Tr) :
    ∀ (props : List (Option String × PropSchema)) (req : List (Option String))
      (diags : List Diag) (P : List (Option String × PropSchema))
      (R : List (Option String)) (D : List Diag),
      parseRows rows props req diags = .ok (P, R, D) →
      (∀ n ∈ req, n ∈ props.map Prod.fst) →
      ∀ n ∈ R, n ∈ P.map Prod.fst := by
  induction rows with
  | nil =>
    intro props req diags P R D hok hinv
    simp only [parseRows] at hok
    obtain ⟨rfl, rfl, rfl⟩ := Prod.mk.injEq .. ▸ Except.ok.inj hok
    exact hinv
  | cons tr rest ih =>
    intro props req diags P R D hok hinv
    obtain ⟨vis, ac, tyc, d⟩ := tr
    cases ac with
    | none => exact Except.noConfusion hok
    | some prop_name =>
      cases hru : requiredUpdate vis req prop_name with
      | error e =>
        rw [show parseRows (⟨vis, some prop_name, tyc, d⟩ :: rest) props req diags
              = .error e by simp [parseRows, hru]] at hok
        exact Except.noConfusion hok
      | ok req' =>
        cases tyc with
        | none =>
          rw [show parseRows (⟨vis, some prop_name, none, d⟩ :: rest) props req diags
                = .error .missingTypeCode by simp [parseRows, hru]] at hok
          exact Except.noConfusion hok
        | some tc =>
          cases hres : resolve_type tc with
          | error e =>
            rw [show parseRows (⟨vis, some prop_name, some tc, d⟩ :: rest) props req diags
                  = .error e by simp [parseRows, hru, hres]] at hok
            exact Except.noConfusion hok
          | ok quad =>
            obtain ⟨pt, pf, it, ds⟩ := quad
            have hok' : parseRows rest
                (dictInsert prop_name ⟨pt, d, it, pf⟩ props) req' (diags ++ ds)
                = .ok (P, R, D) := by
              rw [← hok]
              simp [parseRows, hru, hres]
            refine ih _ _ _ _ _ _ hok' ?_
            intro n hn
            rcases requiredUpdate_sub vis req prop_name req' hru n hn with hn' | rfl
            · exact (dictInsert_mem_fst _ _ _ _).mpr (Or.inr (hinv n hn'))
            · exact (dictInsert_mem_fst _ _ _ _).mpr (Or.inl rfl)

/-- **C9.** For every attributes table the parser succeeds on, every
name in the returned `required` list is a key of the returned
`properties` map. -/
theorem parse_table_required_names_are_keys (rows : List Tr)
    (P : List (Option String × PropSchema)) (R : List (Option String)) (D : List Diag)
    (hok : parse_attributes_table rows = .ok (P, R, D)) :
    ∀ n ∈ R, n ∈ P.map Prod.fst :=
  parseRows_required_sub rows [] [] [] P R D hok (by simp)

/-- Witness for `parse_table_required_names_are_keys` on a concrete
one-row table whose single property is required. -/
theorem parse_table_required_names_are_keys_witness :
    (some "id") ∈ List.map Prod.fst
      [((some "id" : Option String),
        ({ type := some "integer", description := "The id",
           items := none, format := none } : PropSchema))] :=
  parse_table_required_names_are_keys
    [⟨some (some "Required attribute"), some (some "id"), some ⟨["Integer"], none⟩, "The id"⟩]
    [(some "id", ⟨some "integer", "The id", none, none⟩)] [some "id"] [] rfl
    (some "id") (by decide)
